import Mathlib

/-!
Verification of the Modal sandbox provider core
(`packages/modal/src/index.ts`).

Pure functions of the source (runtime detection, shell-command
composition) are translated directly.  Effectful operations that talk to
the remote Modal service (`exec`, stream reads, `wait`, `poll`, file
open/read/write/close) are modelled by explicit world records whose
fields hold the outcome of each remote step as `Except String α`
(an `error` models a rejected promise carrying its message).  A JS
`try/catch` becomes a `match` on the `Except` value.
-/

namespace Modal

/-- Language tag returned by runtime detection (source type `Runtime`). -/
inductive Runtime where
  | node
  | python
deriving DecidableEq, Repr

/-- Boolean substring test modelling the JS `String.prototype.includes`. -/
def containsStr (s pat : String) : Bool :=
  decide (pat.data <:+: s.data)

/-- Strong Node.js indicators checked by `detectRuntime` (source lines 49-56). -/
def nodeMarkers : List String :=
  ["console.log", "process.", "require(", "module.exports",
   "__dirname", "__filename", "throw new Error", "new Error("]

/-- The two-character string consisting of `f` and a single quote, one of the
Python markers in the source. -/
def fSingleQuote : String := ⟨[Char.ofNat 102, Char.ofNat 39]⟩

/-- Strong Python indicators checked by `detectRuntime` (source lines 61-68). -/
def pythonMarkers : List String :=
  ["print(", "import ", "def ", "sys.", "json.", "f\"", fSingleQuote, "raise "]

/-- Predicate: the code contains at least one Node-family marker. -/
def hasNodeMarker (code : String) : Bool :=
  nodeMarkers.any (fun m => containsStr code m)

/-- Predicate: the code contains at least one Python-family marker. -/
def hasPythonMarker (code : String) : Bool :=
  pythonMarkers.any (fun m => containsStr code m)

/-- Translation of `detectRuntime` (source lines 47-74): first the Node marker
list, then the Python marker list, then the fixed default `node`. -/
def detectRuntime (code : String) : Runtime :=
  if hasNodeMarker code then .node
  else if hasPythonMarker code then .python
  else .node

theorem containsStr_intro {s pat : String} (h : pat.data <:+: s.data) :
    containsStr s pat = true := by
  simpa [containsStr] using h

theorem substr_append_middle (p m s : String) :
    m.data <:+: (p ++ m ++ s).data := by
  refine ⟨p.data, s.data, ?_⟩
  simp [String.data_append]

theorem hasNodeMarker_insert (p s m : String) (hm : m ∈ nodeMarkers) :
    hasNodeMarker (p ++ m ++ s) = true := by
  have : containsStr (p ++ m ++ s) m = true :=
    containsStr_intro (substr_append_middle p m s)
  exact List.any_eq_true.mpr ⟨m, hm, this⟩

theorem hasPythonMarker_insert (p s m : String) (hm : m ∈ pythonMarkers) :
    hasPythonMarker (p ++ m ++ s) = true := by
  have : containsStr (p ++ m ++ s) m = true :=
    containsStr_intro (substr_append_middle p m s)
  exact List.any_eq_true.mpr ⟨m, hm, this⟩

/-- C5: detectRuntime is a total deterministic substring classifier: any code
containing a Node marker (at any position) maps to `node`; code containing a
Python marker but no Node marker maps to `python`; code with neither marker
family maps to the default `node`.  Both-family code therefore maps to `node`
because the Node list is consulted first. -/
theorem detectRuntime_marker_classification :
    (∀ code : String, hasNodeMarker code = true → detectRuntime code = .node) ∧
    (∀ code : String, hasNodeMarker code = false → hasPythonMarker code = true →
      detectRuntime code = .python) ∧
    (∀ code : String, hasNodeMarker code = false → hasPythonMarker code = false →
      detectRuntime code = .node) ∧
    (∀ p s m : String, m ∈ nodeMarkers → detectRuntime (p ++ m ++ s) = .node) ∧
    (∀ p s m : String, m ∈ pythonMarkers →
      hasNodeMarker (p ++ m ++ s) = false → detectRuntime (p ++ m ++ s) = .python) := by
  refine ⟨?_, ?_, ?_, ?_, ?_⟩
  · intro code h
    simp [detectRuntime, h]
  · intro code hn hp
    simp [detectRuntime, hn, hp]
  · intro code hn hp
    simp [detectRuntime, hn, hp]
  · intro p s m hm
    simp [detectRuntime, hasNodeMarker_insert p s m hm]
  · intro p s m hm hn
    simp [detectRuntime, hn, hasPythonMarker_insert p s m hm]

/-- Witness for C5 at concrete inputs: a Python print call inserted mid-string
with no Node marker classifies as python, a Node marker classifies as node,
and marker-free text defaults to node. -/
theorem detectRuntime_marker_classification_witness :
    detectRuntime ("x = 1\n" ++ "print(" ++ "2)") = .python ∧
    detectRuntime ("a;\n" ++ "console.log" ++ "(1)") = .node ∧
    detectRuntime "hello world" = .node := by
  refine ⟨?_, ?_, ?_⟩
  · exact detectRuntime_marker_classification.2.2.2.2 "x = 1\n" "2)" "print("
      (by decide) (by decide)
  · exact detectRuntime_marker_classification.2.2.2.1 "a;\n" "(1)" "console.log"
      (by decide)
  · exact detectRuntime_marker_classification.2.2.1 "hello world"
      (by decide) (by decide)

/-! Shell-command composition in `runCommand` (source lines 277-296). -/

/-- The backquote character, written by code point to keep it out of source
literals. -/
def backquote : Char := Char.ofNat 96

/-- Characters that are special inside a POSIX double-quoted string. -/
def dqSpecial (c : Char) : Bool :=
  c = '\\' || c = '"' || c = '$' || c = backquote

/-- Escape of one character for a double-quote context. -/
def escChar (c : Char) : List Char :=
  if dqSpecial c then ['\\', c] else [c]

/-- Modelled from the spec: `escapeShellArg` is imported from the provider
scaffolding package (`@computesdk/provider`), whose code is not part of this
core.  The spec requires only that each env value and the cwd path are
shell-escaped so that, inside the double quotes the composition wraps them in,
no combination of values can break out of its quoting context; we model it as
backslash-escaping every character that is special inside POSIX double quotes
(backslash, double quote, dollar, backquote). -/
def escapeShellArg (s : String) : String :=
  ⟨s.data.flatMap escChar⟩

/-- Translation of the command-composition prefix layering of `runCommand`
(source lines 277-296): env-assignment prefix, then a quoted `cd` wrapper,
then the background wrapper. -/
def buildFullCommand (command : String) (env : List (String × String))
    (cwd : Option String) (background : Bool) : String :=
  let fullCommand := command
  let fullCommand :=
    if env.length > 0 then
      (String.intercalate " "
        (env.map (fun kv => kv.1 ++ "=\"" ++ escapeShellArg kv.2 ++ "\""))) ++
        " " ++ fullCommand
    else fullCommand
  let fullCommand :=
    match cwd with
    | some c => "cd \"" ++ escapeShellArg c ++ "\" && " ++ fullCommand
    | none => fullCommand
  if background then "nohup " ++ fullCommand ++ " > /dev/null 2>&1 &"
  else fullCommand

/-- POSIX double-quote interpretation: reads the body of a double-quoted
region up to its unescaped closing quote and returns the literal content
together with the input following the closing quote.  An unescaped dollar or
backquote would start command/parameter substitution, and running off the end
means the quote was never closed; both are modelled as `none` (no safe literal
reading exists). -/
def dqBody : List Char → Option (List Char × List Char)
  | [] => none
  | c :: rest =>
    if c = '"' then some ([], rest)
    else if c = '\\' then
      match rest with
      | [] => none
      | d :: rest2 =>
        if dqSpecial d then
          (dqBody rest2).map (fun pr => (d :: pr.1, pr.2))
        else if d = '\n' then
          (dqBody rest2).map (fun pr => pr)
        else
          (dqBody rest2).map (fun pr => ('\\' :: d :: pr.1, pr.2))
    else if c = '$' || c = backquote then none
    else (dqBody rest).map (fun pr => (c :: pr.1, pr.2))

theorem dqBody_escaped (s rest : List Char) :
    dqBody (s.flatMap escChar ++ '"' :: rest) = some (s, rest) := by
  induction s with
  | nil =>
    rw [dqBody.eq_def]
    simp
  | cons c cs ih =>
    by_cases hc : dqSpecial c
    · have hstep : (c :: cs).flatMap escChar ++ '"' :: rest =
          '\\' :: c :: (cs.flatMap escChar ++ '"' :: rest) := by
        simp [escChar, hc]
      rw [hstep, dqBody.eq_def]
      simp [hc, ih]
    · have h1 : c ≠ '"' := fun h => hc (by simp [dqSpecial, h])
      have h2 : c ≠ '\\' := fun h => hc (by simp [dqSpecial, h])
      have h4 : c ≠ '$' := fun h => hc (by simp [dqSpecial, h])
      have h5 : c ≠ backquote := fun h => hc (by simp [dqSpecial, h])
      have hstep : (c :: cs).flatMap escChar ++ '"' :: rest =
          c :: (cs.flatMap escChar ++ '"' :: rest) := by
        simp [escChar, hc]
      rw [hstep, dqBody.eq_def]
      simp [h1, h2, h4, h5, ih]

/-- Parser for the shell reading of the cwd-wrapped composition
`cd "..." && rest`: returns the literal quoted path and the remaining command
text, or `none` if the quoted region is broken out of or starts a
substitution. -/
def parseCdCommand (l : List Char) : Option (List Char × List Char) :=
  match l with
  | 'c' :: 'd' :: ' ' :: '"' :: rest =>
    match dqBody rest with
    | some (body, ' ' :: '&' :: '&' :: ' ' :: tail) => some (body, tail)
    | _ => none
  | _ => none

/-- Parser for the shell reading of one env-assignment prefix
`NAME="..." rest`: returns the variable name, the literal quoted value, and
the remaining command text. -/
def parseAssign (l : List Char) : Option (List Char × List Char × List Char) :=
  let name := l.takeWhile (fun c => c ≠ '=')
  match l.dropWhile (fun c => c ≠ '=') with
  | '=' :: '"' :: r2 =>
    match dqBody r2 with
    | some (v, ' ' :: tail) => some (name, v, tail)
    | _ => none
  | _ => none

theorem takeWhile_no_sep {p : Char → Bool} (xs : List Char) (y : Char)
    (ys : List Char) (hxs : ∀ c ∈ xs, p c = true) (hy : p y = false) :
    (xs ++ y :: ys).takeWhile p = xs := by
  induction xs with
  | nil => simp [List.takeWhile, hy]
  | cons a as ih =>
    have ha : p a = true := hxs a (by simp)
    have hrec := ih (fun c hc => hxs c (by simp [hc]))
    simp [List.takeWhile, ha, hrec]

theorem dropWhile_no_sep {p : Char → Bool} (xs : List Char) (y : Char)
    (ys : List Char) (hxs : ∀ c ∈ xs, p c = true) (hy : p y = false) :
    (xs ++ y :: ys).dropWhile p = y :: ys := by
  induction xs with
  | nil => simp [List.dropWhile, hy]
  | cons a as ih =>
    have ha : p a = true := hxs a (by simp)
    have hrec := ih (fun c hc => hxs c (by simp [hc]))
    simp [List.dropWhile, ha, hrec]

/-- C1: the quoting used by `runCommand` for `options.cwd` and `options.env`
values is injection-safe under the spec-modelled `escapeShellArg`: the shell
reads the composed `cd "..." && command` back as exactly the literal cwd path
followed by the untouched command, and an env prefix `K="..." command` back as
exactly the literal value, for every path and value, including ones holding
quotes, dollars, backquotes or semicolons; no choice of cwd or env value can
close the quoting context or start a substitution. -/
theorem runCommand_quoting_injection_safe :
    (∀ cwd cmd : String,
      parseCdCommand ((buildFullCommand cmd [] (some cwd) false).data) =
        some (cwd.data, cmd.data)) ∧
    (∀ k v cmd : String, (∀ c ∈ k.data, c ≠ '=') →
      parseAssign ((buildFullCommand cmd [(k, v)] none false).data) =
        some (k.data, v.data, cmd.data)) := by
  constructor
  · intro cwd cmd
    have hdata : (buildFullCommand cmd [] (some cwd) false).data =
        'c' :: 'd' :: ' ' :: '"' ::
          (cwd.data.flatMap escChar ++
            '"' :: ' ' :: '&' :: '&' :: ' ' :: cmd.data) := by
      simp [buildFullCommand, escapeShellArg, String.data_append]
    rw [hdata]
    simp [parseCdCommand, dqBody_escaped]
  · intro k v cmd hk
    have hdata : (buildFullCommand cmd [(k, v)] none false).data =
        k.data ++ '=' ::
          ('"' :: (v.data.flatMap escChar ++ '"' :: ' ' :: cmd.data)) := by
      simp [buildFullCommand, escapeShellArg, String.intercalate,
        String.intercalate.go, String.data_append]
    rw [hdata]
    have htk := takeWhile_no_sep (p := fun c => c ≠ '=') k.data '='
      ('"' :: (v.data.flatMap escChar ++ '"' :: ' ' :: cmd.data))
      (by intro c hc; simpa using hk c hc) (by simp)
    have hdp := dropWhile_no_sep (p := fun c => c ≠ '=') k.data '='
      ('"' :: (v.data.flatMap escChar ++ '"' :: ' ' :: cmd.data))
      (by intro c hc; simpa using hk c hc) (by simp)
    simp only [ne_eq, decide_not] at htk hdp
    simp [parseAssign, htk, hdp, dqBody_escaped]

/-- Witness for C1: a cwd ending in a quote and carrying a command-substitution
attempt, and an env value carrying a substitution, both read back literally
with the trailing command intact. -/
theorem runCommand_quoting_injection_safe_witness :
    parseCdCommand ((buildFullCommand "ls" []
        (some "/tmp/x\"; rm -rf $HOME; echo `boom`") false).data) =
      some (("/tmp/x\"; rm -rf $HOME; echo `boom`").data, ("ls").data) ∧
    parseAssign ((buildFullCommand "echo hi" [("A", "$(boom)")] none false).data) =
      some (("A").data, ("$(boom)").data, ("echo hi").data) :=
  ⟨runCommand_quoting_injection_safe.1 "/tmp/x\"; rm -rf $HOME; echo `boom`" "ls",
   runCommand_quoting_injection_safe.2 "A" "$(boom)" "echo hi" (by decide)⟩

/-! Execution engine: `runCommand` (source lines 273-326) and `runCode`
(source lines 202-271). -/

/-- Result record of `runCommand` (source type `CommandResult`). -/
structure CommandResult where
  stdout : String
  stderr : String
  exitCode : Int
  durationMs : Int
deriving DecidableEq, Repr

/-- Translation of the JS `String.prototype.trim`: strip whitespace from both
ends (kept as an explicit list computation so it evaluates by `decide`). -/
def jsTrim (s : String) : String :=
  ⟨((s.data.dropWhile Char.isWhitespace).reverse.dropWhile
      Char.isWhitespace).reverse⟩

/-- The JS expression `n || 0` on a number: zero is falsy. -/
def jsOrZero (n : Int) : Int :=
  if n = 0 then 0 else n

/-- The JS expression `s || ""` on a string: the empty string is falsy. -/
def jsOrEmpty (s : String) : String :=
  if s = "" then "" else s

theorem jsOrZero_eq (n : Int) : jsOrZero n = n := by
  by_cases h : n = 0 <;> simp [jsOrZero, h]

theorem jsOrEmpty_eq (s : String) : jsOrEmpty s = s := by
  by_cases h : s = "" <;> simp [jsOrEmpty, h]

/-- Outcomes of the remote steps taken by one `runCommand` call.  `exec` is a
function of the composed command string so the started process depends on the
string actually passed to `sh -c`; the stream reads and the wait are the
outcomes of that one started process. -/
structure CommandWorld where
  exec : String → Except String Unit
  readStdout : Except String String
  readStderr : Except String String
  waitExit : Except String Int

/-- The body of the `try` block of `runCommand`: start `sh -c fullCommand`,
read both streams, wait for the exit status, and build the result record
(source lines 276-317). -/
def runCommandTry (w : CommandWorld) (fullCommand : String)
    (startTime now : Int) : Except String CommandResult := do
  let _ ← w.exec fullCommand
  let out ← w.readStdout
  let err ← w.readStderr
  let code ← w.waitExit
  pure ⟨jsOrEmpty out, jsOrEmpty err, jsOrZero code, now - startTime⟩

/-- Translation of `runCommand` (source lines 273-326): compose the command,
run the pipeline, and convert any failure into a result with empty stdout, the
failure message as stderr, and exit code 127 (the `catch` block, source lines
318-325). -/
def runCommandModel (w : CommandWorld) (command : String)
    (env : List (String × String)) (cwd : Option String) (background : Bool)
    (startTime now : Int) : CommandResult :=
  match runCommandTry w (buildFullCommand command env cwd background)
      startTime now with
  | .ok r => r
  | .error e => ⟨"", e, 127, now - startTime⟩

/-- C3: `runCommand` never propagates a failure: it is a total function into
`CommandResult`, and whenever any step of its pipeline fails the call returns
empty stdout, the failure message as stderr, exit code 127 and the measured
duration, while a fully successful pipeline returns the pipeline result
unchanged. -/
theorem runCommand_never_throws (w : CommandWorld) (command : String)
    (env : List (String × String)) (cwd : Option String) (background : Bool)
    (startTime now : Int) :
    (∀ e : String,
      runCommandTry w (buildFullCommand command env cwd background)
          startTime now = .error e →
      runCommandModel w command env cwd background startTime now =
        ⟨"", e, 127, now - startTime⟩) ∧
    (∀ r : CommandResult,
      runCommandTry w (buildFullCommand command env cwd background)
          startTime now = .ok r →
      runCommandModel w command env cwd background startTime now = r) := by
  constructor
  · intro e he
    simp [runCommandModel, he]
  · intro r hr
    simp [runCommandModel, hr]

/-- Witness for C3: a world whose process start fails (a nonexistent utility)
yields exit code 127 with the failure text as stderr, and a successful world
yields the pipeline result. -/
theorem runCommand_never_throws_witness :
    runCommandModel
        ⟨fun _ => .error "spawn sh ENOENT", .ok "", .ok "", .ok 0⟩
        "definitely-not-a-utility" [] none false 5 9 =
      ⟨"", "spawn sh ENOENT", 127, 4⟩ ∧
    runCommandModel ⟨fun _ => .ok (), .ok "hi\n", .ok "", .ok 0⟩
        "echo hi" [] none false 5 9 =
      ⟨"hi\n", "", 0, 4⟩ := by
  constructor
  · exact (runCommand_never_throws
      ⟨fun _ => .error "spawn sh ENOENT", .ok "", .ok "", .ok 0⟩
      "definitely-not-a-utility" [] none false 5 9).1 "spawn sh ENOENT" rfl
  · exact (runCommand_never_throws
      ⟨fun _ => .ok (), .ok "hi\n", .ok "", .ok 0⟩
      "echo hi" [] none false 5 9).2 ⟨"hi\n", "", 0, 4⟩ rfl

/-- Result record of `runCode` (source type `CodeResult`). -/
structure CodeResult where
  output : String
  exitCode : Int
  language : Runtime
deriving DecidableEq, Repr

/-- Outcomes of the remote steps taken by one `runCode` call: the three
provisioning steps of the transient Python sandbox (app lookup, image fetch,
sandbox creation, source lines 219-221), the exec/read/read/wait pipeline, and
the outcome of terminating the transient sandbox. -/
structure CodeWorld where
  lookupApp : Except String Unit
  getImage : Except String Unit
  createAux : Except String Unit
  exec : Except String Unit
  readStdout : Except String String
  readStderr : Except String String
  waitExit : Except String Int
  terminateAux : Except String Unit

/-- Observable outcome of a `runCode` call: the returned or thrown value,
whether a transient Python sandbox was created, and whether its termination
was attempted before the call finished. -/
structure RunCodeOutcome where
  result : Except String CodeResult
  auxCreated : Bool
  terminateAttempted : Bool
deriving Repr

/-- Syntax-error signature test on captured stderr (source lines 250-251). -/
def isSynSignature (err : String) : Bool :=
  containsStr err "SyntaxError" || containsStr err "invalid syntax"

/-- Translation of the exec/read/read/wait section of `runCode` together with
the conditional cleanup and the stderr classification (source lines 226-260).
The termination outcome `w.terminateAux` is deliberately never consulted: the
source wraps `terminate` in its own `try` with an empty `catch`, so its
failure cannot influence anything observable. -/
def runCodePipeline (w : CodeWorld) (detected : Runtime) (cleanup : Bool) :
    RunCodeOutcome :=
  match w.exec with
  | .error e => ⟨.error e, cleanup, false⟩
  | .ok _ =>
    match w.readStdout with
    | .error e => ⟨.error e, cleanup, false⟩
    | .ok out =>
      match w.readStderr with
      | .error e => ⟨.error e, cleanup, false⟩
      | .ok err =>
        match w.waitExit with
        | .error e => ⟨.error e, cleanup, false⟩
        | .ok code =>
          if code ≠ 0 ∧ err ≠ "" ∧ isSynSignature err = true then
            ⟨.error ("Syntax error: " ++ (jsTrim err)), cleanup, cleanup⟩
          else
            ⟨.ok ⟨jsOrEmpty out ++ jsOrEmpty err, jsOrZero code, detected⟩,
              cleanup, cleanup⟩

/-- The body of the `try` block of `runCode` (source lines 205-260): resolve
the runtime, reuse the Node sandbox or provision a transient Python sandbox,
then run the pipeline. -/
def runCodeInner (w : CodeWorld) (code : String) (runtime : Option Runtime) :
    RunCodeOutcome :=
  match runtime.getD (detectRuntime code) with
  | .node => runCodePipeline w .node false
  | .python =>
    match w.lookupApp with
    | .error e => ⟨.error e, false, false⟩
    | .ok _ =>
      match w.getImage with
      | .error e => ⟨.error e, false, false⟩
      | .ok _ =>
        match w.createAux with
        | .error e => ⟨.error e, false, false⟩
        | .ok _ => runCodePipeline w .python true

/-- Translation of `runCode` (source lines 202-271): the `catch` block
re-throws failures whose message contains the syntax marker verbatim and
wraps every other failure (source lines 261-270). -/
def runCodeModel (w : CodeWorld) (code : String) (runtime : Option Runtime) :
    RunCodeOutcome :=
  let o := runCodeInner w code runtime
  match o.result with
  | .ok r => ⟨.ok r, o.auxCreated, o.terminateAttempted⟩
  | .error e =>
    if containsStr e "Syntax error" = true then
      ⟨.error e, o.auxCreated, o.terminateAttempted⟩
    else
      ⟨.error ("Modal execution failed: " ++ e), o.auxCreated,
        o.terminateAttempted⟩

theorem runCodeModel_flags (w : CodeWorld) (code : String)
    (runtime : Option Runtime) :
    (runCodeModel w code runtime).auxCreated =
      (runCodeInner w code runtime).auxCreated ∧
    (runCodeModel w code runtime).terminateAttempted =
      (runCodeInner w code runtime).terminateAttempted := by
  unfold runCodeModel
  cases h : (runCodeInner w code runtime).result <;> simp [h]
  split <;> simp

theorem runCodeModel_result (w : CodeWorld) (code : String)
    (runtime : Option Runtime) :
    (runCodeModel w code runtime).result =
      match (runCodeInner w code runtime).result with
      | .ok r => .ok r
      | .error e =>
        if containsStr e "Syntax error" = true then .error e
        else .error ("Modal execution failed: " ++ e) := by
  unfold runCodeModel
  cases h : (runCodeInner w code runtime).result <;> simp [h]
  split <;> simp

theorem runCodePipeline_flags_ok (w : CodeWorld) (detected : Runtime)
    (cleanup : Bool) (out err : String) (c : Int)
    (hex : w.exec = Except.ok ()) (hout : w.readStdout = Except.ok out)
    (herr : w.readStderr = Except.ok err) (hwt : w.waitExit = Except.ok c) :
    (runCodePipeline w detected cleanup).auxCreated = cleanup ∧
    (runCodePipeline w detected cleanup).terminateAttempted = cleanup := by
  by_cases hs : ¬c = 0 ∧ ¬err = "" ∧ isSynSignature err = true
  · simp [runCodePipeline, hex, hout, herr, hwt, hs]
  · simp [runCodePipeline, hex, hout, herr, hwt, hs]

theorem runCodePipeline_flags_err (w : CodeWorld) (detected : Runtime)
    (cleanup : Bool)
    (h : (∃ e, w.exec = .error e) ∨ (∃ e, w.readStdout = .error e) ∨
      (∃ e, w.readStderr = .error e) ∨ (∃ e, w.waitExit = .error e)) :
    (runCodePipeline w detected cleanup).auxCreated = cleanup ∧
    (runCodePipeline w detected cleanup).terminateAttempted = false := by
  unfold runCodePipeline
  cases hex : w.exec with
  | error e => simp
  | ok u =>
    cases hout : w.readStdout with
    | error e => simp
    | ok out =>
      cases herr : w.readStderr with
      | error e => simp
      | ok err =>
        cases hwt : w.waitExit with
        | error e => simp
        | ok c =>
          exfalso
          rcases h with ⟨e, he⟩ | ⟨e, he⟩ | ⟨e, he⟩ | ⟨e, he⟩
          · rw [hex] at he
            exact Except.noConfusion he
          · rw [hout] at he
            exact Except.noConfusion he
          · rw [herr] at he
            exact Except.noConfusion he
          · rw [hwt] at he
            exact Except.noConfusion he

/-- C2 counterexample: a `runCode` call that provisions the transient Python
sandbox successfully and then fails to start the process finishes without ever
attempting to terminate that sandbox — the cleanup sits inside the `try` block
after the wait, and there is no `finally`, so the exceptional exit path skips
it. -/
theorem runCode_cleanup_counterexample :
    (runCodeModel
        ⟨.ok (), .ok (), .ok (), .error "connection reset", .ok "", .ok "",
          .ok 0, .ok ()⟩
        "print(1)" none).auxCreated = true ∧
    (runCodeModel
        ⟨.ok (), .ok (), .ok (), .error "connection reset", .ok "", .ok "",
          .ok 0, .ok ()⟩
        "print(1)" none).terminateAttempted = false := by
  constructor <;> rfl

/-- C2 amended: termination of the transient Python sandbox is attempted
exactly on the exit paths that get past the exec/read/read/wait pipeline (the
normal return and the thrown syntax failure), it is never attempted when
starting the process, reading either stream, or waiting for the exit status
fails, and the outcome of the termination itself never influences the observable
result (the failure of the teardown is swallowed). -/
theorem runCode_cleanup_amended (w : CodeWorld) (code : String)
    (runtime : Option Runtime) :
    (w.exec = .ok () → (∀ out, w.readStdout = .ok out →
      ∀ err, w.readStderr = .ok err → ∀ c, w.waitExit = .ok c →
      (runCodeModel w code runtime).terminateAttempted =
        (runCodeModel w code runtime).auxCreated)) ∧
    ((∃ e, w.exec = .error e) ∨ (∃ e, w.readStdout = .error e) ∨
      (∃ e, w.readStderr = .error e) ∨ (∃ e, w.waitExit = .error e) →
      (runCodeModel w code runtime).terminateAttempted = false) ∧
    (∀ t1 t2 : Except String Unit,
      runCodeModel
        ⟨w.lookupApp, w.getImage, w.createAux, w.exec, w.readStdout,
          w.readStderr, w.waitExit, t1⟩ code runtime =
      runCodeModel
        ⟨w.lookupApp, w.getImage, w.createAux, w.exec, w.readStdout,
          w.readStderr, w.waitExit, t2⟩ code runtime) := by
  refine ⟨?_, ?_, ?_⟩
  · intro hex out hout err herr c hwt
    obtain ⟨ha, ht⟩ := runCodeModel_flags w code runtime
    rw [ha, ht]
    unfold runCodeInner
    cases runtime.getD (detectRuntime code) with
    | node =>
      obtain ⟨h1, h2⟩ :=
        runCodePipeline_flags_ok w .node false out err c hex hout herr hwt
      rw [h1, h2]
    | python =>
      cases w.lookupApp with
      | error e => rfl
      | ok u1 =>
        cases w.getImage with
        | error e => rfl
        | ok u2 =>
          cases w.createAux with
          | error e => rfl
          | ok u3 =>
            obtain ⟨h1, h2⟩ := runCodePipeline_flags_ok w .python true
              out err c hex hout herr hwt
            rw [h1, h2]
  · intro h
    obtain ⟨ha, ht⟩ := runCodeModel_flags w code runtime
    rw [ht]
    unfold runCodeInner
    cases runtime.getD (detectRuntime code) with
    | node => exact (runCodePipeline_flags_err w .node false h).2
    | python =>
      cases w.lookupApp with
      | error e => rfl
      | ok u1 =>
        cases w.getImage with
        | error e => rfl
        | ok u2 =>
          cases w.createAux with
          | error e => rfl
          | ok u3 => exact (runCodePipeline_flags_err w .python true h).2
  · intro t1 t2
    rfl

/-- Witness for C2 amended: on a fully successful Python run the transient
sandbox is both created and terminated, and on an exec failure no termination
is attempted. -/
theorem runCode_cleanup_amended_witness :
    (runCodeModel
        ⟨.ok (), .ok (), .ok (), .ok (), .ok "1\n", .ok "", .ok 0, .ok ()⟩
        "print(1)" none).terminateAttempted =
      (runCodeModel
        ⟨.ok (), .ok (), .ok (), .ok (), .ok "1\n", .ok "", .ok 0, .ok ()⟩
        "print(1)" none).auxCreated ∧
    (runCodeModel
        ⟨.ok (), .ok (), .ok (), .error "boom", .ok "", .ok "", .ok 0,
          .ok ()⟩
        "print(1)" none).terminateAttempted = false := by
  constructor
  · exact (runCode_cleanup_amended
      ⟨.ok (), .ok (), .ok (), .ok (), .ok "1\n", .ok "", .ok 0, .ok ()⟩
      "print(1)" none).1 rfl "1\n" rfl "" rfl 0 rfl
  · exact (runCode_cleanup_amended
      ⟨.ok (), .ok (), .ok (), .error "boom", .ok "", .ok "", .ok 0, .ok ()⟩
      "print(1)" none).2.1 (Or.inl ⟨"boom", rfl⟩)

theorem trim_infix_of_msg (err : String) :
    containsStr ("Syntax error: " ++ err) err = true := by
  refine containsStr_intro ?_
  refine ⟨("Syntax error: ").data, [], ?_⟩
  simp [String.data_append]

theorem isSynSignature_ne_empty {err : String}
    (h : isSynSignature err = true) : err ≠ "" := by
  intro he
  subst he
  simp [isSynSignature, containsStr] at h

theorem synMsg_marker (s : String) :
    containsStr ("Syntax error: " ++ s) "Syntax error" = true := by
  refine containsStr_intro ?_
  refine ⟨[], (": " ++ s).data, ?_⟩
  simp [String.data_append]

/-- C4: when a `runCode` execution reaches a non-zero exit status, a stderr
matching the syntax-error signature is promoted to a thrown failure whose
message is exactly the syntax marker followed by the trimmed interpreter
stderr (so it contains the original text and is re-thrown without the generic
wrapping), while any other non-zero exit is returned normally with that exit
code in the result. -/
theorem runCode_nonzero_exit_classification (w : CodeWorld) (code : String)
    (runtime : Option Runtime) (out err : String) (c : Int)
    (hlk : w.lookupApp = .ok ()) (him : w.getImage = .ok ())
    (hca : w.createAux = .ok ()) (hex : w.exec = .ok ())
    (hout : w.readStdout = .ok out) (herr : w.readStderr = .ok err)
    (hwt : w.waitExit = .ok c) (hc : c ≠ 0) :
    (isSynSignature err = true →
      (runCodeModel w code runtime).result =
        .error ("Syntax error: " ++ (jsTrim err)) ∧
      containsStr ("Syntax error: " ++ (jsTrim err)) (jsTrim err) = true) ∧
    (isSynSignature err = false →
      (runCodeModel w code runtime).result =
        .ok ⟨out ++ err, c, runtime.getD (detectRuntime code)⟩) := by
  have hpipe : ∀ (d : Runtime) (b : Bool),
      (runCodePipeline w d b).result =
        if c ≠ 0 ∧ err ≠ "" ∧ isSynSignature err = true then
          .error ("Syntax error: " ++ (jsTrim err))
        else .ok ⟨jsOrEmpty out ++ jsOrEmpty err, jsOrZero c, d⟩ := by
    intro d b
    by_cases hs : ¬c = 0 ∧ ¬err = "" ∧ isSynSignature err = true
    · simp [runCodePipeline, hex, hout, herr, hwt, hs]
    · simp [runCodePipeline, hex, hout, herr, hwt, hs]
  have hinner : (runCodeInner w code runtime).result =
      if c ≠ 0 ∧ err ≠ "" ∧ isSynSignature err = true then
        .error ("Syntax error: " ++ (jsTrim err))
      else .ok ⟨jsOrEmpty out ++ jsOrEmpty err, jsOrZero c,
        runtime.getD (detectRuntime code)⟩ := by
    unfold runCodeInner
    cases runtime.getD (detectRuntime code) with
    | node => exact hpipe .node false
    | python =>
      rw [hlk, him, hca]
      exact hpipe .python true
  constructor
  · intro hsyn
    have hne : err ≠ "" := isSynSignature_ne_empty hsyn
    have hres : (runCodeInner w code runtime).result =
        .error ("Syntax error: " ++ (jsTrim err)) := by
      rw [hinner, if_pos ⟨hc, hne, hsyn⟩]
    constructor
    · rw [runCodeModel_result, hres]
      simp [synMsg_marker]
    · exact trim_infix_of_msg (jsTrim err)
  · intro hsyn
    have hres : (runCodeInner w code runtime).result =
        .ok ⟨jsOrEmpty out ++ jsOrEmpty err, jsOrZero c,
          runtime.getD (detectRuntime code)⟩ := by
      rw [hinner, if_neg]
      intro hcontra
      rw [hcontra.2.2] at hsyn
      exact Bool.noConfusion hsyn
    rw [runCodeModel_result, hres]
    simp [jsOrEmpty_eq, jsOrZero_eq]

/-- Witness for C4: a Python run exiting 1 with a SyntaxError on stderr throws
the syntax message, and a Python run exiting 2 with an ordinary stderr returns
a result carrying exit code 2. -/
theorem runCode_nonzero_exit_classification_witness :
    (runCodeModel
        ⟨.ok (), .ok (), .ok (), .ok (), .ok "",
          .ok "  SyntaxError: invalid syntax\n", .ok 1, .ok ()⟩
        "print(" none).result =
      .error ("Syntax error: " ++ jsTrim "  SyntaxError: invalid syntax\n") ∧
    (runCodeModel
        ⟨.ok (), .ok (), .ok (), .ok (), .ok "", .ok "boom\n", .ok 2,
          .ok ()⟩
        "print(1)" none).result =
      .ok ⟨"" ++ "boom\n", 2, Runtime.python⟩ := by
  constructor
  · exact ((runCode_nonzero_exit_classification
      ⟨.ok (), .ok (), .ok (), .ok (), .ok "",
        .ok "  SyntaxError: invalid syntax\n", .ok 1, .ok ()⟩
      "print(" none "" "  SyntaxError: invalid syntax\n" 1
      rfl rfl rfl rfl rfl rfl rfl (by decide)).1 (by decide)).1
  · exact (runCode_nonzero_exit_classification
      ⟨.ok (), .ok (), .ok (), .ok (), .ok "", .ok "boom\n", .ok 2, .ok ()⟩
      "print(1)" none "" "boom\n" 2
      rfl rfl rfl rfl rfl rfl rfl (by decide)).2 (by decide)

/-! Filesystem facade (source lines 384-562): primary structured-file-API
path with shell fallback for `readFile` and `writeFile`, and the
error-swallowing `exists` probe. -/

/-- A file handle returned by the structured `open` API.  A `none` method
models `typeof file.x !== "function"`, in which case the source skips the
call. -/
structure ReadFileAPI where
  readFn : Option (Except String String)
  closeFn : Option (Except String Unit)

/-- Outcomes of the remote steps of one `readFile` call: the primary
open/read/close path and the `cat` fallback. -/
structure ReadWorld where
  openFile : Except String ReadFileAPI
  catExec : Except String Unit
  catStdout : Except String String
  catStderr : Except String String
  catWait : Except String Int

/-- Primary path of `readFile` (source lines 386-402): open, read if a read
method exists (content stays empty otherwise), close if a close method
exists, return the content. -/
def primaryRead (w : ReadWorld) : Except String String := do
  let f ← w.openFile
  let content ←
    match f.readFn with
    | none => Except.ok ""
    | some r => r
  let _ ←
    match f.closeFn with
    | none => Except.ok ()
    | some r => r
  pure content

/-- Fallback path of `readFile` (source lines 405-422): run `cat path`, read
both streams, wait; non-zero exit throws with the fallback stderr; success
returns the trimmed stdout. -/
def fallbackRead (w : ReadWorld) : Except String String := do
  let _ ← w.catExec
  let out ← w.catStdout
  let err ← w.catStderr
  let code ← w.catWait
  if code ≠ 0 then Except.error ("cat failed: " ++ err)
  else pure (jsTrim out)

/-- Translation of `filesystem.readFile` (source lines 385-427): the fallback
runs only inside the catch of the primary path, and a fallback failure
surfaces the original primary error qualified with the path. -/
def readFileModel (path : String) (w : ReadWorld) : Except String String :=
  match primaryRead w with
  | .ok content => .ok content
  | .error e =>
    match fallbackRead w with
    | .ok content => .ok content
    | .error _ => .error ("Failed to read file " ++ path ++ ": " ++ e)

/-- A file handle for writing, mirroring `ReadFileAPI`. -/
structure WriteFileAPI where
  writeFn : Option (Except String Unit)
  closeFn : Option (Except String Unit)

/-- Outcomes of the remote steps of one `writeFile` call: the primary
open/write/close path and the `sh -c printf` fallback. -/
structure WriteWorld where
  openFile : Except String WriteFileAPI
  shExec : Except String Unit
  shStdout : Except String String
  shStderr : Except String String
  shWait : Except String Int

/-- Primary path of `writeFile` (source lines 430-442). -/
def primaryWrite (w : WriteWorld) : Except String Unit := do
  let f ← w.openFile
  let _ ←
    match f.writeFn with
    | none => Except.ok ()
    | some r => r
  let _ ←
    match f.closeFn with
    | none => Except.ok ()
    | some r => r
  pure ()

/-- Fallback path of `writeFile` (source lines 445-460): run the quoted
`printf` redirection, read both streams, wait; non-zero exit throws with the
fallback stderr. -/
def fallbackWrite (w : WriteWorld) : Except String Unit := do
  let _ ← w.shExec
  let _ ← w.shStdout
  let err ← w.shStderr
  let code ← w.shWait
  if code ≠ 0 then Except.error ("write failed: " ++ err)
  else pure ()

/-- Translation of `filesystem.writeFile` (source lines 429-465). -/
def writeFileModel (path : String) (w : WriteWorld) : Except String Unit :=
  match primaryWrite w with
  | .ok _ => .ok ()
  | .error e =>
    match fallbackWrite w with
    | .ok _ => .ok ()
    | .error _ => .error ("Failed to write file " ++ path ++ ": " ++ e)

/-- C6: for both `readFile` and `writeFile` the fallback only matters after
the primary path fails — a successful primary path is returned as-is — and
when primary and fallback both fail, the surfaced error embeds the original
primary error message qualified with the target path, never the fallback
error message. -/
theorem filesystem_fallback_preserves_primary_error (path : String)
    (wr : ReadWorld) (ww : WriteWorld) :
    (∀ content, primaryRead wr = .ok content →
      readFileModel path wr = .ok content) ∧
    (∀ e e2, primaryRead wr = .error e → fallbackRead wr = .error e2 →
      readFileModel path wr =
        .error ("Failed to read file " ++ path ++ ": " ++ e)) ∧
    (primaryWrite ww = .ok () → writeFileModel path ww = .ok ()) ∧
    (∀ e e2, primaryWrite ww = .error e → fallbackWrite ww = .error e2 →
      writeFileModel path ww =
        .error ("Failed to write file " ++ path ++ ": " ++ e)) := by
  refine ⟨?_, ?_, ?_, ?_⟩
  · intro content h
    simp [readFileModel, h]
  · intro e e2 hp hf
    simp [readFileModel, hp, hf]
  · intro h
    simp [writeFileModel, h]
  · intro e e2 hp hf
    simp [writeFileModel, hp, hf]

/-- Witness for C6 at concrete worlds: a primary read that succeeds wins, and
a dual failure surfaces the primary message (EACCES), not the fallback's
(cat failed). -/
theorem filesystem_fallback_preserves_primary_error_witness :
    readFileModel "/etc/app.conf"
        ⟨.ok ⟨some (.ok "data"), some (.ok ())⟩, .ok (), .ok "", .ok "",
          .ok 0⟩ = .ok "data" ∧
    readFileModel "/etc/app.conf"
        ⟨.error "EACCES", .ok (), .ok "", .ok "cat: permission denied",
          .ok 1⟩ =
      .error ("Failed to read file /etc/app.conf: EACCES") ∧
    writeFileModel "/etc/app.conf"
        ⟨.error "EROFS", .ok (), .ok "", .ok "sh: read-only", .ok 1⟩ =
      .error ("Failed to write file /etc/app.conf: EROFS") := by
  refine ⟨?_, ?_, ?_⟩
  · exact (filesystem_fallback_preserves_primary_error "/etc/app.conf"
      ⟨.ok ⟨some (.ok "data"), some (.ok ())⟩, .ok (), .ok "", .ok "",
        .ok 0⟩
      ⟨.ok ⟨some (.ok ()), some (.ok ())⟩, .ok (), .ok "", .ok "",
        .ok 0⟩).1 "data" rfl
  · exact (filesystem_fallback_preserves_primary_error "/etc/app.conf"
      ⟨.error "EACCES", .ok (), .ok "", .ok "cat: permission denied",
        .ok 1⟩
      ⟨.ok ⟨some (.ok ()), some (.ok ())⟩, .ok (), .ok "", .ok "",
        .ok 0⟩).2.1 "EACCES" "cat failed: cat: permission denied" rfl rfl
  · exact (filesystem_fallback_preserves_primary_error "/etc/app.conf"
      ⟨.ok ⟨some (.ok "data"), some (.ok ())⟩, .ok (), .ok "", .ok "",
        .ok 0⟩
      ⟨.error "EROFS", .ok (), .ok "", .ok "sh: read-only", .ok 1⟩).2.2.2
      "EROFS" "write failed: sh: read-only" rfl rfl

/-- World that makes the primary read path of `readFile` succeed with content
`s` (the fallback fields are present but unused). -/
def primaryOkWorld (s : String) : ReadWorld :=
  ⟨.ok ⟨some (.ok s), some (.ok ())⟩, .ok (), .ok "", .ok "", .ok 0⟩

/-- World that makes the primary read path fail and the `cat` fallback
succeed with stdout `s`. -/
def catOkWorld (s : String) : ReadWorld :=
  ⟨.error "open not supported", .ok (), .ok s, .ok "", .ok 0⟩

/-- C9: the two paths of `readFile` are not equivalent: the primary path
returns the file content unmodified while the `cat` fallback trims leading
and trailing whitespace, so on any content with surrounding whitespace
(such as a final newline) the two paths return different strings. -/
theorem readFile_paths_not_equivalent (path s : String) :
    readFileModel path (primaryOkWorld s) = .ok s ∧
    readFileModel path (catOkWorld s) = .ok (jsTrim s) ∧
    ((jsTrim s) ≠ s →
      readFileModel path (primaryOkWorld s) ≠
        readFileModel path (catOkWorld s)) := by
  refine ⟨?_, ?_, ?_⟩
  · rfl
  · rfl
  · intro hne heq
    rw [show readFileModel path (primaryOkWorld s) = .ok s from rfl,
      show readFileModel path (catOkWorld s) = .ok (jsTrim s) from rfl] at heq
    exact hne (Except.ok.inj heq).symm

/-- Witness for C9: content ending in a newline round-trips unchanged through
the primary path but comes back trimmed through the fallback, so the paths
disagree. -/
theorem readFile_paths_not_equivalent_witness :
    readFileModel "/tmp/f" (primaryOkWorld "hello\n") ≠
      readFileModel "/tmp/f" (catOkWorld "hello\n") :=
  (readFile_paths_not_equivalent "/tmp/f" "hello\n").2.2 (by decide)

/-- Outcomes of the remote steps of one `exists` call: starting the
`test -e` probe and waiting for its exit status. -/
structure ExistsWorld where
  probeExec : Except String Unit
  probeWait : Except String Int

/-- Translation of `filesystem.exists` (source lines 532-540): run
`test -e path`, wait, compare the exit code with 0; any failure anywhere is
caught and returned as `false`. -/
def existsModel (w : ExistsWorld) : Bool :=
  match w.probeExec with
  | .error _ => false
  | .ok _ =>
    match w.probeWait with
    | .ok code => decide (code = 0)
    | .error _ => false

/-- C8: `exists` is a total boolean — no failure propagates — and it returns
`true` exactly when the probe process was started and its wait delivered exit
status 0; every probe-execution failure (not just a non-zero exit) yields
`false`. -/
theorem exists_true_iff_probe_zero (w : ExistsWorld) :
    existsModel w = true ↔
      w.probeExec = .ok () ∧ w.probeWait = .ok 0 := by
  unfold existsModel
  cases hex : w.probeExec with
  | error e => simp [hex]
  | ok u =>
    cases u
    cases hwt : w.probeWait with
    | error e => simp [hwt]
    | ok c => simp [hwt]

/-- Witness for C8: a probe that starts and exits 0 gives `true`, and a probe
whose execution itself fails gives `false`. -/
theorem exists_true_iff_probe_zero_witness :
    existsModel ⟨.ok (), .ok 0⟩ = true ∧
    existsModel ⟨.error "exec failed", .ok 0⟩ ≠ true :=
  ⟨(exists_true_iff_probe_zero ⟨.ok (), .ok 0⟩).mpr ⟨rfl, rfl⟩,
   fun h =>
     by simpa using ((exists_true_iff_probe_zero
       ⟨.error "exec failed", .ok 0⟩).mp h).1⟩

/-! Lifecycle `getInfo` (source lines 328-354). -/

/-- Status values reported by `getInfo`. -/
inductive SandboxStatus where
  | running
  | stopped
  | errored
deriving DecidableEq, Repr

/-- The info record returned by `getInfo` (source type `SandboxInfo`,
restricted to the fields the source populates).  `createdAt` holds the time
at which the record was built (`new Date()` in the source). -/
structure SandboxInfo where
  id : String
  provider : String
  runtime : Runtime
  status : SandboxStatus
  createdAt : Int
  timeout : Int
  metadataModalSandboxId : String
  realModalImplementation : Bool
deriving Repr

/-- Outcome of the one remote step of `getInfo`: polling the sandbox, which
delivers `none` while it still runs and its exit code once finished. -/
structure InfoWorld where
  poll : Except String (Option Int)

/-- Translation of `getInfo` (source lines 328-354): poll for status
(failure and `null` both mean running, exit 0 means stopped, anything else
means error), then return hardcoded runtime `node`, timeout 300000, and a
`createdAt` equal to the time of this very call. -/
def getInfoModel (sandboxId : String) (w : InfoWorld) (now : Int) :
    SandboxInfo :=
  let status :=
    match w.poll with
    | .error _ => SandboxStatus.running
    | .ok none => SandboxStatus.running
    | .ok (some r) =>
      if r = 0 then SandboxStatus.stopped else SandboxStatus.errored
  ⟨sandboxId, "modal", .node, status, now, 300000, sandboxId, true⟩

/-- C10: `getInfo` reports the fixed runtime `node`, the fixed timeout
300000, and a `createdAt` equal to the moment of the call itself, for every
handle and every poll outcome; only the id and the polled status vary, the
status being stopped on polled exit 0, error on any other polled exit,
and running when the poll returns nothing or fails. -/
theorem getInfo_reports_fixed_values (sandboxId : String) (w : InfoWorld)
    (now : Int) :
    (getInfoModel sandboxId w now).runtime = .node ∧
    (getInfoModel sandboxId w now).timeout = 300000 ∧
    (getInfoModel sandboxId w now).createdAt = now ∧
    (getInfoModel sandboxId w now).id = sandboxId ∧
    (w.poll = .ok (some 0) →
      (getInfoModel sandboxId w now).status = .stopped) ∧
    (∀ r : Int, r ≠ 0 → w.poll = .ok (some r) →
      (getInfoModel sandboxId w now).status = .errored) ∧
    (w.poll = .ok none →
      (getInfoModel sandboxId w now).status = .running) ∧
    (∀ e, w.poll = .error e →
      (getInfoModel sandboxId w now).status = .running) := by
  refine ⟨rfl, rfl, rfl, rfl, ?_, ?_, ?_, ?_⟩
  · intro h
    simp [getInfoModel, h]
  · intro r hr h
    simp [getInfoModel, h, hr]
  · intro h
    simp [getInfoModel, h]
  · intro e h
    simp [getInfoModel, h]

/-- Witness for C10: two handles with different poll outcomes and different
call times still report runtime node and timeout 300000, while createdAt
tracks the call time and status tracks the poll. -/
theorem getInfo_reports_fixed_values_witness :
    (getInfoModel "sb-1" ⟨.ok (some 0)⟩ 1111).runtime = .node ∧
    (getInfoModel "sb-1" ⟨.ok (some 0)⟩ 1111).timeout = 300000 ∧
    (getInfoModel "sb-1" ⟨.ok (some 0)⟩ 1111).createdAt = 1111 ∧
    (getInfoModel "sb-1" ⟨.ok (some 0)⟩ 1111).status = .stopped ∧
    (getInfoModel "sb-2" ⟨.error "poll failed"⟩ 2222).status = .running := by
  obtain ⟨h1, h2, h3, _, h5, _⟩ :=
    getInfo_reports_fixed_values "sb-1" ⟨.ok (some 0)⟩ 1111
  obtain ⟨_, _, _, _, _, _, _, h8⟩ :=
    getInfo_reports_fixed_values "sb-2" ⟨.error "poll failed"⟩ 2222
  exact ⟨h1, h2, h3, h5 rfl, h8 "poll failed" rfl⟩

/-! Lifecycle `getUrl` (source lines 356-381).  The source treats the tunnel
URL through the WHATWG `URL` object: parse, assign `protocol`, serialize.  We
model the URL value by its components and give an executable
parser/serializer pair so that "all other components pass through unchanged"
is a provable statement about the returned string. -/

/-- Components of a URL `scheme://host[:port]path[?query][#fragment]`. -/
structure UrlParts where
  scheme : List Char
  host : List Char
  port : Option (List Char)
  path : List Char
  query : Option (List Char)
  fragment : Option (List Char)
deriving DecidableEq, Repr

/-- Characters allowed in a scheme (anything up to the `://` separator). -/
def schemeP (c : Char) : Bool := decide (c ≠ ':' ∧ c ≠ '/')

/-- Characters allowed in a host (anything up to a port, path, query or
fragment delimiter). -/
def hostP (c : Char) : Bool := decide (c ≠ ':' ∧ c ≠ '/' ∧ c ≠ '?' ∧ c ≠ '#')

/-- Characters allowed in a port (anything up to a path, query or fragment
delimiter). -/
def portP (c : Char) : Bool := decide (c ≠ '/' ∧ c ≠ '?' ∧ c ≠ '#')

/-- Characters allowed in a path (anything up to a query or fragment
delimiter). -/
def pathP (c : Char) : Bool := decide (c ≠ '?' ∧ c ≠ '#')

/-- Characters allowed in a query (anything up to a fragment delimiter). -/
def queryP (c : Char) : Bool := decide (c ≠ '#')

/-- Port segment of a serialized URL. -/
def portPart : Option (List Char) → List Char
  | none => []
  | some p => ':' :: p

/-- Query segment of a serialized URL. -/
def qPart : Option (List Char) → List Char
  | none => []
  | some q => '?' :: q

/-- Fragment segment of a serialized URL. -/
def fPart : Option (List Char) → List Char
  | none => []
  | some f => '#' :: f

/-- Serialization of URL components back to the character sequence. -/
def urlChars (u : UrlParts) : List Char :=
  u.scheme ++ ':' :: '/' :: '/' ::
    (u.host ++ (portPart u.port ++ (u.path ++ (qPart u.query ++ fPart u.fragment))))

/-- Serialization of URL components to a string. -/
def urlSerialize (u : UrlParts) : String := ⟨urlChars u⟩

/-- Parse of path, query and fragment from the text following host and
port. -/
def parsePathQF (sch host : List Char) (port : Option (List Char))
    (r : List Char) : Option UrlParts :=
  let path := r.takeWhile pathP
  match r.dropWhile pathP with
  | [] => some ⟨sch, host, port, path, none, none⟩
  | '?' :: r5 =>
    let q := r5.takeWhile queryP
    match r5.dropWhile queryP with
    | [] => some ⟨sch, host, port, path, some q, none⟩
    | '#' :: f => some ⟨sch, host, port, path, some q, some f⟩
    | _ => none
  | '#' :: f => some ⟨sch, host, port, path, none, some f⟩
  | _ => none

/-- URL parser: scheme up to `://`, host, optional `:port`, then path, query
and fragment. -/
def parseUrl (l : List Char) : Option UrlParts :=
  let sch := l.takeWhile schemeP
  if sch = [] then none
  else
    match l.dropWhile schemeP with
    | ':' :: '/' :: '/' :: r2 =>
      let host := r2.takeWhile hostP
      let r3 := r2.dropWhile hostP
      if r3.head? = some ':' then
        parsePathQF sch host (some ((r3.drop 1).takeWhile portP))
          ((r3.drop 1).dropWhile portP)
      else parsePathQF sch host none r3
    | _ => none

/-- Well-formedness of URL components: each component avoids the delimiters
that end it during parsing, the scheme is non-empty, and the path is empty or
absolute. -/
def WFUrl (u : UrlParts) : Prop :=
  u.scheme ≠ [] ∧
  (∀ c ∈ u.scheme, schemeP c = true) ∧
  (∀ c ∈ u.host, hostP c = true) ∧
  (∀ c ∈ u.port.getD [], portP c = true) ∧
  (u.path = [] ∨ u.path.head? = some '/') ∧
  (∀ c ∈ u.path, pathP c = true) ∧
  (∀ c ∈ u.query.getD [], queryP c = true)

instance (u : UrlParts) : Decidable (WFUrl u) := by
  unfold WFUrl
  infer_instance

theorem takeWhile_all {p : Char → Bool} (xs : List Char)
    (h : ∀ c ∈ xs, p c = true) : xs.takeWhile p = xs := by
  induction xs with
  | nil => rfl
  | cons a as ih =>
    have ha : p a = true := h a (by simp)
    simp [List.takeWhile, ha, ih (fun c hc => h c (by simp [hc]))]

theorem dropWhile_all {p : Char → Bool} (xs : List Char)
    (h : ∀ c ∈ xs, p c = true) : xs.dropWhile p = [] := by
  induction xs with
  | nil => rfl
  | cons a as ih =>
    have ha : p a = true := h a (by simp)
    simp [List.dropWhile, ha, ih (fun c hc => h c (by simp [hc]))]

/-- Splitting a concatenation at the first delimiter: if every character of
`xs` satisfies `p` and `rest` is empty or starts with a character failing
`p`, then `takeWhile`/`dropWhile` recover `xs` and `rest`. -/
theorem split_at_delim {p : Char → Bool} (xs rest : List Char)
    (hxs : ∀ c ∈ xs, p c = true)
    (hrest : rest = [] ∨ ∃ y ys, rest = y :: ys ∧ p y = false) :
    (xs ++ rest).takeWhile p = xs ∧ (xs ++ rest).dropWhile p = rest := by
  rcases hrest with h | ⟨y, ys, hys, hy⟩
  · subst h
    exact ⟨by simpa using takeWhile_all xs hxs,
      by simpa using dropWhile_all xs hxs⟩
  · subst hys
    exact ⟨takeWhile_no_sep xs y ys hxs hy, dropWhile_no_sep xs y ys hxs hy⟩

theorem parsePathQF_round (sch host : List Char) (port : Option (List Char))
    (path : List Char) (query frag : Option (List Char))
    (hpath : ∀ c ∈ path, pathP c = true)
    (hq : ∀ c ∈ query.getD [], queryP c = true) :
    parsePathQF sch host port (path ++ (qPart query ++ fPart frag)) =
      some ⟨sch, host, port, path, query, frag⟩ := by
  have hrest : qPart query ++ fPart frag = [] ∨
      ∃ y ys, qPart query ++ fPart frag = y :: ys ∧ pathP y = false := by
    cases query with
    | some q => exact Or.inr ⟨'?', q ++ fPart frag, by simp [qPart], by decide⟩
    | none =>
      cases frag with
      | some f => exact Or.inr ⟨'#', f, by simp [qPart, fPart], by decide⟩
      | none => exact Or.inl (by simp [qPart, fPart])
  obtain ⟨htk, hdp⟩ :=
    split_at_delim path (qPart query ++ fPart frag) hpath hrest
  cases query with
  | none =>
    cases frag with
    | none =>
      simp only [qPart, fPart, List.append_nil, List.nil_append] at htk hdp
      simp [parsePathQF, qPart, fPart, htk, hdp]
    | some f =>
      simp only [qPart, fPart, List.nil_append] at htk hdp
      simp [parsePathQF, qPart, fPart, htk, hdp]
  | some q =>
    have hq2 : ∀ c ∈ q, queryP c = true := by simpa using hq
    have hrest2 : fPart frag = [] ∨
        ∃ y ys, fPart frag = y :: ys ∧ queryP y = false := by
      cases frag with
      | some f => exact Or.inr ⟨'#', f, by simp [fPart], by decide⟩
      | none => exact Or.inl (by simp [fPart])
    obtain ⟨htk2, hdp2⟩ := split_at_delim q (fPart frag) hq2 hrest2
    cases frag with
    | none =>
      simp only [qPart, fPart, List.append_nil, List.nil_append]
        at htk hdp htk2 hdp2
      simp [parsePathQF, qPart, fPart, htk, hdp, htk2, hdp2]
    | some f =>
      simp only [qPart, fPart, List.cons_append, List.nil_append]
        at htk hdp htk2 hdp2
      simp [parsePathQF, qPart, fPart, htk, hdp, htk2, hdp2]

theorem pqfHead (path : List Char) (query frag : Option (List Char))
    (hshape : path = [] ∨ path.head? = some '/') :
    path ++ (qPart query ++ fPart frag) = [] ∨
    (∃ ys, path ++ (qPart query ++ fPart frag) = '/' :: ys) ∨
    (∃ ys, path ++ (qPart query ++ fPart frag) = '?' :: ys) ∨
    (∃ ys, path ++ (qPart query ++ fPart frag) = '#' :: ys) := by
  rcases hshape with h | h
  · subst h
    cases query with
    | some q => exact Or.inr (Or.inr (Or.inl ⟨q ++ fPart frag, by simp [qPart]⟩))
    | none =>
      cases frag with
      | some f => exact Or.inr (Or.inr (Or.inr ⟨f, by simp [qPart, fPart]⟩))
      | none => exact Or.inl (by simp [qPart, fPart])
  · cases path with
    | nil => simp at h
    | cons a t =>
      simp at h
      subst h
      exact Or.inr (Or.inl ⟨t ++ (qPart query ++ fPart frag), by simp⟩)

/-- Parsing is a left inverse of serialization on well-formed URL
components. -/
theorem parseUrl_roundtrip (u : UrlParts) (h : WFUrl u) :
    parseUrl (urlChars u) = some u := by
  obtain ⟨scheme, host, port, path, query, frag⟩ := u
  obtain ⟨hsne, hs, hh, hpw, hshape, hpath, hq⟩ := h
  simp only at hsne hs hh hpw hshape hpath hq
  have hpqf := pqfHead path query frag hshape
  have hpqfDelim : ∀ p : Char → Bool,
      p '/' = false → p '?' = false → p '#' = false →
      (path ++ (qPart query ++ fPart frag) = [] ∨
        ∃ y ys, path ++ (qPart query ++ fPart frag) = y :: ys ∧
          p y = false) := by
    intro p h1 h2 h3
    rcases hpqf with h0 | ⟨ys, h0⟩ | ⟨ys, h0⟩ | ⟨ys, h0⟩
    · exact Or.inl h0
    · exact Or.inr ⟨'/', ys, h0, h1⟩
    · exact Or.inr ⟨'?', ys, h0, h2⟩
    · exact Or.inr ⟨'#', ys, h0, h3⟩
  have hsplit1 := split_at_delim (p := schemeP) scheme
    (':' :: '/' :: '/' ::
      (host ++ (portPart port ++ (path ++ (qPart query ++ fPart frag)))))
    hs (Or.inr ⟨':', _, rfl, by decide⟩)
  have hrest2 : portPart port ++ (path ++ (qPart query ++ fPart frag)) = [] ∨
      ∃ y ys,
        portPart port ++ (path ++ (qPart query ++ fPart frag)) = y :: ys ∧
        hostP y = false := by
    cases port with
    | some p =>
      exact Or.inr ⟨':', p ++ (path ++ (qPart query ++ fPart frag)),
        by simp [portPart], by decide⟩
    | none =>
      simpa [portPart] using
        hpqfDelim hostP (by decide) (by decide) (by decide)
  have hsplit2 := split_at_delim (p := hostP) host
    (portPart port ++ (path ++ (qPart query ++ fPart frag))) hh hrest2
  unfold parseUrl urlChars
  simp only [hsplit1.1, hsplit1.2, if_neg hsne]
  simp only [hsplit2.1, hsplit2.2]
  cases port with
  | some p =>
    have hpw2 : ∀ c ∈ p, portP c = true := by simpa [Option.getD] using hpw
    have hsplit3 := split_at_delim (p := portP) p
      (path ++ (qPart query ++ fPart frag)) hpw2
      (hpqfDelim portP (by decide) (by decide) (by decide))
    simp only [portPart, List.cons_append, List.head?, List.drop_succ_cons,
      List.drop_zero]
    simp only [List.append_assoc] at hsplit3 ⊢
    simp [hsplit3.1, hsplit3.2, parsePathQF_round scheme host (some p) path
      query frag hpath hq]
  | none =>
    have hne : (path ++ (qPart query ++ fPart frag)).head? ≠ some ':' := by
      rcases hpqf with h0 | ⟨ys, h0⟩ | ⟨ys, h0⟩ | ⟨ys, h0⟩ <;> simp [h0]
    simp only [portPart, List.nil_append]
    rw [if_neg hne]
    exact parsePathQF_round _ _ none path query frag hpath hq

/-- Lookup of `tunnels[port]` in the tunnel map returned by the remote
service. -/
def lookupTunnel (tunnels : List (Nat × String)) (port : Nat) :
    Option String :=
  (tunnels.find? (fun t => t.1 == port)).map (fun t => t.2)

/-- Translation of `getUrl` (source lines 356-381): look the port up in the
tunnel map, fail (wrapped by the catch) when it is absent, return the tunnel
URL unchanged when no protocol override is requested, and otherwise parse the
URL, overwrite its scheme with the requested protocol and serialize it
back (`urlObj.protocol = options.protocol + ":"`). -/
def getUrlModel (tunnels : List (Nat × String)) (port : Nat)
    (protocol : Option String) : Except String String :=
  match lookupTunnel tunnels port with
  | none =>
    .error ("Failed to get Modal tunnel URL for port " ++ toString port ++
      ": No tunnel found for port " ++ toString port ++
      ". Available ports: " ++
      String.intercalate ", " (tunnels.map (fun t => toString t.1)))
  | some url =>
    match protocol with
    | none => .ok url
    | some p =>
      match parseUrl url.data with
      | none =>
        .error ("Failed to get Modal tunnel URL for port " ++ toString port ++
          ": Invalid URL")
      | some u => .ok (urlSerialize { u with scheme := p.data })

/-- C7: when a protocol override is requested, `getUrl` returns the tunnel
URL with exactly the scheme replaced: the returned string parses back to
components identical to the tunnel URL's in host, port, path, query and
fragment, with the scheme equal to the requested protocol; with no override
the tunnel URL is returned unchanged. -/
theorem getUrl_rewrites_only_scheme (tunnels : List (Nat × String))
    (port : Nat) (p url : String) (u : UrlParts)
    (hlk : lookupTunnel tunnels port = some url)
    (hparse : parseUrl url.data = some u)
    (hwf : WFUrl { u with scheme := p.data }) :
    getUrlModel tunnels port (some p) =
      .ok (urlSerialize { u with scheme := p.data }) ∧
    parseUrl (urlSerialize { u with scheme := p.data }).data =
      some ⟨p.data, u.host, u.port, u.path, u.query, u.fragment⟩ ∧
    getUrlModel tunnels port none = .ok url := by
  refine ⟨?_, ?_, ?_⟩
  · simp [getUrlModel, hlk, hparse]
  · have hser : (urlSerialize { u with scheme := p.data }).data =
        urlChars { u with scheme := p.data } := rfl
    rw [hser, parseUrl_roundtrip _ hwf]
  · simp [getUrlModel, hlk]

/-- Witness for C7 at a concrete tunnel map: overriding `https` by `ws` on
`https://r3-abc.modal.run:8080/app?x=1#top` keeps host, port, path, query and
fragment, and the no-override call returns the URL unchanged. -/
theorem getUrl_rewrites_only_scheme_witness :
    getUrlModel [(8080, "https://r3-abc.modal.run:8080/app?x=1#top")] 8080
        (some "ws") = .ok "ws://r3-abc.modal.run:8080/app?x=1#top" ∧
    getUrlModel [(8080, "https://r3-abc.modal.run:8080/app?x=1#top")] 8080
        none = .ok "https://r3-abc.modal.run:8080/app?x=1#top" := by
  have h := getUrl_rewrites_only_scheme
    [(8080, "https://r3-abc.modal.run:8080/app?x=1#top")] 8080 "ws"
    "https://r3-abc.modal.run:8080/app?x=1#top"
    ⟨("https").data, ("r3-abc.modal.run").data, some (("8080").data),
      ("/app").data, some (("x=1").data), some (("top").data)⟩
    (by decide) (by decide) (by decide)
  exact ⟨h.1.trans (congrArg Except.ok (by decide)), h.2.2⟩

end Modal
